import Mathlib

/-!
Verification of `ios_burp_setup.py`: profile construction (`_sanitize_identifier`,
`build_profile`), the plist XML serialization it calls (`plistlib.dumps` with
`fmt=FMT_XML`, modelled from CPython's `plistlib`), an XML-plist reader modelling
`plistlib.loads` on such documents, the `/download` route of `ProfileHandler.do_GET`,
and `get_local_ip`.

Python strings are modelled as `List Char` (a Python `str` is a sequence of
Unicode code points).
-/

namespace BurpSetup

/-- Python `str.isalnum`, per code point.  The Unicode table is modelled exactly on
ASCII and the Latin-1 supplement (letters, superscripts, vulgar fractions, ª, µ, º);
code points ≥ U+0100 are not in the modelled fragment and are mapped to `false`.
Every universally-quantified theorem below holds for an arbitrary predicate in this
position; the table is only evaluated on ASCII/Latin-1 inputs. -/
def pyIsAlnum (c : Char) : Bool :=
  let n := c.toNat
  (48 ≤ n && n ≤ 57) || (65 ≤ n && n ≤ 90) || (97 ≤ n && n ≤ 122) ||
  n == 0xAA || n == 0xB2 || n == 0xB3 || n == 0xB5 || n == 0xB9 || n == 0xBA ||
  (0xBC ≤ n && n ≤ 0xBE) ||
  (0xC0 ≤ n && n ≤ 0xFF && n != 0xD7 && n != 0xF7)

/-- The per-character filter of `_sanitize_identifier`: alphanumeric, or the
hyphen U+002D, or the dot U+002E. -/
def keepChar (c : Char) : Bool :=
  pyIsAlnum c || c.toNat == 45 || c.toNat == 46

/-- Python `value.strip(".")`: remove leading and trailing `'.'` characters. -/
def stripDots (s : List Char) : List Char :=
  ((s.dropWhile (fun c => c == '.')).reverse.dropWhile (fun c => c == '.')).reverse

/-- Model of `_sanitize_identifier` (src/ios_burp_setup.py:31-32): join the characters
of `value` that pass `keepChar`, then strip dots from both ends. -/
def sanitize_identifier (value : List Char) : List Char :=
  stripDots (value.filter keepChar)

/-- Model of line 40, `_sanitize_identifier(ssid) or "wifi"`: Python `or` substitutes
the fallback when the sanitized string is empty (falsy). -/
def sanitized_ssid (ssid : List Char) : List Char :=
  if sanitize_identifier ssid = [] then "wifi".toList else sanitize_identifier ssid

/-- Constant `PROXY_PORT = 8082` (src/ios_burp_setup.py:14). -/
def PROXY_PORT : Int := 8082

/-- Property-list values, as built by `build_profile` and consumed by
`plistlib.dumps`. -/
inductive PValue where
  | pstr : List Char → PValue
  | pint : Int → PValue
  | pbool : Bool → PValue
  | parr : List PValue → PValue
  | pdict : List (List Char × PValue) → PValue

/-- The Wi-Fi payload dictionary of `build_profile` (src/ios_burp_setup.py:43-57),
entries in Python insertion order. -/
def wifi_payload (ssid proxy_ip wifi_uuid : List Char) : List (List Char × PValue) :=
  [("AutoJoin".toList, .pbool true),
   ("EncryptionType".toList, .pstr "Any".toList),
   ("HIDDEN_NETWORK".toList, .pbool false),
   ("PayloadDescription".toList, .pstr "Configures Wi-Fi proxy settings".toList),
   ("PayloadDisplayName".toList, .pstr (ssid ++ " Wi-Fi".toList)),
   ("PayloadIdentifier".toList, .pstr ("com.example.wifi.".toList ++ sanitized_ssid ssid)),
   ("PayloadType".toList, .pstr "com.apple.wifi.managed".toList),
   ("PayloadUUID".toList, .pstr wifi_uuid),
   ("PayloadVersion".toList, .pint 1),
   ("ProxyType".toList, .pstr "Manual".toList),
   ("ProxyServer".toList, .pstr proxy_ip),
   ("ProxyServerPort".toList, .pint PROXY_PORT),
   ("SSID_STR".toList, .pstr ssid)]

/-- Entries of the top-level `payload` dictionary of `build_profile`
(src/ios_burp_setup.py:41-66), in Python insertion order.  The two `uuid.uuid4()`
draws (lines 37-38) are explicit parameters `profile_uuid` and `wifi_uuid`. -/
def profile_outer_entries (ssid proxy_ip profile_uuid wifi_uuid : List Char) :
    List (List Char × PValue) :=
  [("PayloadContent".toList, .parr [.pdict (wifi_payload ssid proxy_ip wifi_uuid)]),
   ("PayloadDescription".toList, .pstr "Installs Wi-Fi proxy settings for Burp Suite".toList),
   ("PayloadDisplayName".toList, .pstr "Burp Suite Wi-Fi Proxy".toList),
   ("PayloadIdentifier".toList, .pstr ("com.example.burp-proxy.".toList ++ sanitized_ssid ssid)),
   ("PayloadOrganization".toList, .pstr "Burp Proxy Setup".toList),
   ("PayloadType".toList, .pstr "Configuration".toList),
   ("PayloadUUID".toList, .pstr profile_uuid),
   ("PayloadVersion".toList, .pint 1)]

/-- The top-level `payload` dictionary of `build_profile` (src/ios_burp_setup.py:41-66). -/
def build_profile_dict (ssid proxy_ip profile_uuid wifi_uuid : List Char) : PValue :=
  .pdict (profile_outer_entries ssid proxy_ip profile_uuid wifi_uuid)

/-- Association lookup in a dictionary entry list (Python `d[k]`). -/
def lookupE (es : List (List Char × PValue)) (k : List Char) : Option PValue :=
  match es with
  | [] => none
  | (k', v) :: rest => if k' = k then some v else lookupE rest k

/-- Lookup of a key in a plist dictionary value. -/
def pLookup (v : PValue) (k : List Char) : Option PValue :=
  match v with
  | .pdict es => lookupE es k
  | _ => none

/-! ### Model of `plistlib.dumps(payload, fmt=plistlib.FMT_XML)` (CPython `plistlib`)

CPython's XML plist writer raises `ValueError` when a string or key contains a
control character outside tab, newline and carriage return; otherwise it emits the
fixed XML prolog, the value tree with tab indentation, dictionary entries sorted by
key (`dumps` defaults to `sort_keys=True`), carriage returns normalized to newlines,
and the three XML-special characters escaped as entities. -/

/-- Control characters rejected by the plist writer: U+0000-U+0008, U+000B, U+000C,
U+000E-U+001F (tab, LF and CR are allowed). -/
def bannedCtrl (c : Char) : Bool :=
  let n := c.toNat
  (n ≤ 8) || n == 11 || n == 12 || (14 ≤ n && n ≤ 31)

/-- First normalization pass of the writer: CRLF pairs become a single LF. -/
def crlf : List Char → List Char
  | [] => []
  | [c] => [c]
  | c :: d :: r => if c = '\r' ∧ d = '\n' then '\n' :: crlf r else c :: crlf (d :: r)

/-- Both normalization passes: CRLF to LF, then any remaining CR to LF. -/
def normCR (s : List Char) : List Char :=
  (crlf s).map (fun c => if c = '\r' then '\n' else c)

/-- XML entity escaping of one character, applied after CR normalization. -/
def escChar (c : Char) : List Char :=
  if c = '&' then "&amp;".toList
  else if c = '<' then "&lt;".toList
  else if c = '>' then "&gt;".toList
  else [c]

/-- The writer's text transformation for string and key content. -/
def escapeStr (s : List Char) : List Char :=
  (normCR s).flatMap escChar

/-- Decimal digit character. -/
def digitCh (n : Nat) : Char := Char.ofNat (48 + n)

/-- Decimal digits of a natural number, most significant first (fueled). -/
def natDigitsAux : Nat → Nat → List Char
  | 0, _ => []
  | fuel+1, n => if n < 10 then [digitCh n] else natDigitsAux fuel (n / 10) ++ [digitCh (n % 10)]

/-- Decimal digits of a natural number, most significant first. -/
def natDigits (n : Nat) : List Char := natDigitsAux (n + 1) n

/-- Decimal rendering of an integer, as the writer's integer element content. -/
def intRepr (i : Int) : List Char :=
  if i < 0 then '-' :: natDigits (-i).toNat else natDigits i.toNat

/-- Tab indentation at a nesting level. -/
def tabs (n : Nat) : List Char := List.replicate n '\t'

/-- Strict lexicographic order on strings by code point, as Python string `<`. -/
def strLt : List Char → List Char → Bool
  | [], [] => false
  | [], _ :: _ => true
  | _ :: _, [] => false
  | a :: as, b :: bs => if a.toNat < b.toNat then true else if b.toNat < a.toNat then false else strLt as bs

/-- Ordered insertion of a dictionary entry by key. -/
def insEntry (e : List Char × PValue) : List (List Char × PValue) → List (List Char × PValue)
  | [] => [e]
  | f :: rest => if strLt e.1 f.1 then e :: f :: rest else f :: insEntry e rest

/-- Sort dictionary entries by key, as `sorted(d.items())` with `sort_keys=True`. -/
def sortEntries : List (List Char × PValue) → List (List Char × PValue)
  | [] => []
  | e :: rest => insEntry e (sortEntries rest)

mutual
/-- Recursively sort every dictionary of a value by key; the writer emits entries in
this order. -/
def canon : PValue → PValue
  | .pdict es => .pdict (sortEntries (canonE es))
  | .parr xs => .parr (canonL xs)
  | .pstr s => .pstr s
  | .pint n => .pint n
  | .pbool b => .pbool b
def canonE : List (List Char × PValue) → List (List Char × PValue)
  | [] => []
  | (k, v) :: es => (k, canon v) :: canonE es
def canonL : List PValue → List PValue
  | [] => []
  | x :: xs => canon x :: canonL xs
end

mutual
/-- Whether some string or key of the value contains a banned control character,
in which case the writer raises `ValueError`. -/
def hasBadV : PValue → Bool
  | .pstr s => s.any bannedCtrl
  | .pint _ => false
  | .pbool _ => false
  | .parr xs => hasBadL xs
  | .pdict es => hasBadE es
def hasBadL : List PValue → Bool
  | [] => false
  | x :: xs => hasBadV x || hasBadL xs
def hasBadE : List (List Char × PValue) → Bool
  | [] => false
  | (k, v) :: es => k.any bannedCtrl || hasBadV v || hasBadE es
end

/-- Code points the writer cannot UTF-8-encode: lone surrogates U+D800-U+DFFF.
CPython strings may contain them (e.g. via surrogateescape-decoded argv), and the
writer's `writeln` raises `UnicodeEncodeError` from `line.encode` on them.  Lean's
`Char` ranges over Unicode scalar values only, so this embedding's strings are
exactly the surrogate-free CPython strings and the check below is provably never
taken on them (`char_no_surrogate`); it is kept so the model carries the writer's
second raise path explicitly. -/
def surrChar (c : Char) : Bool := 0xD800 ≤ c.toNat && c.toNat ≤ 0xDFFF

mutual
/-- Whether some string or key of the value contains a lone surrogate, in which
case the writer raises `UnicodeEncodeError` while encoding its output. -/
def hasSurrV : PValue → Bool
  | .pstr s => s.any surrChar
  | .pint _ => false
  | .pbool _ => false
  | .parr xs => hasSurrL xs
  | .pdict es => hasSurrE es
def hasSurrL : List PValue → Bool
  | [] => false
  | x :: xs => hasSurrV x || hasSurrL xs
def hasSurrE : List (List Char × PValue) → Bool
  | [] => false
  | (k, v) :: es => k.any surrChar || hasSurrV v || hasSurrE es
end

mutual
/-- XML plist writer body: one value at an indentation level. -/
def writeV (lvl : Nat) : PValue → List Char
  | .pstr s => tabs lvl ++ "<string>".toList ++ escapeStr s ++ "</string>\n".toList
  | .pint n => tabs lvl ++ "<integer>".toList ++ intRepr n ++ "</integer>\n".toList
  | .pbool true => tabs lvl ++ "<true/>\n".toList
  | .pbool false => tabs lvl ++ "<false/>\n".toList
  | .parr [] => tabs lvl ++ "<array/>\n".toList
  | .parr (x :: xs) =>
      tabs lvl ++ "<array>\n".toList ++ writeL (lvl + 1) (x :: xs) ++ tabs lvl ++ "</array>\n".toList
  | .pdict [] => tabs lvl ++ "<dict/>\n".toList
  | .pdict (e :: es) =>
      tabs lvl ++ "<dict>\n".toList ++ writeE (lvl + 1) (e :: es) ++ tabs lvl ++ "</dict>\n".toList
def writeL (lvl : Nat) : List PValue → List Char
  | [] => []
  | x :: xs => writeV lvl x ++ writeL lvl xs
def writeE (lvl : Nat) : List (List Char × PValue) → List Char
  | [] => []
  | (k, v) :: es =>
      tabs lvl ++ "<key>".toList ++ escapeStr k ++ "</key>\n".toList ++ writeV lvl v ++ writeE lvl es
end

/-- The fixed XML prolog, DOCTYPE and plist opening emitted by the writer. -/
def plistHeader : List Char :=
  ("<?xml version=\"1.0\" encoding=\"UTF-8\"?>\n<!DOCTYPE plist PUBLIC \"-//Apple//DTD PLIST 1.0//EN\" \"http://www.apple.com/DTDs/PropertyList-1.0.dtd\">\n<plist version=\"1.0\">\n").toList

/-- Model of `plistlib.dumps(value, fmt=plistlib.FMT_XML)`: `error` models an
exception — the `ValueError` raised on banned control characters, or the
`UnicodeEncodeError` raised while UTF-8-encoding a lone surrogate; `ok` carries the
emitted bytes (as code points; the byte output is their UTF-8 encoding). -/
def plistlib_dumps (v : PValue) : Except Unit (List Char) :=
  if hasBadV v then .error ()
  else if hasSurrV v then .error ()
  else .ok (plistHeader ++ writeV 0 (canon v) ++ "</plist>\n".toList)

/-- Model of `build_profile` (src/ios_burp_setup.py:35-68): construct the payload
dictionary and serialize it.  The two `uuid.uuid4()` draws are parameters. -/
def build_profile (ssid proxy_ip profile_uuid wifi_uuid : List Char) : Except Unit (List Char) :=
  plistlib_dumps (build_profile_dict ssid proxy_ip profile_uuid wifi_uuid)

/-! ### Model of `plistlib.loads` on XML plist documents

A reader for the XML documents the writer above produces: it skips whitespace
between elements, reads `string`, `integer`, `true`, `false`, `array` and `dict`
elements, and undoes the entity escaping.  Recursion is fueled; `plistlib_loads`
supplies more fuel than any document can need. -/

/-- XML inter-element whitespace. -/
def isWsChar (c : Char) : Bool := c == ' ' || c == '\t' || c == '\n' || c == '\r'

/-- Drop leading inter-element whitespace. -/
def skipWs (s : List Char) : List Char := s.dropWhile isWsChar

/-- Consume an exact literal prefix. -/
def dropLit : List Char → List Char → Option (List Char)
  | [], s => some s
  | _ :: _, [] => none
  | c :: p, d :: s => if c = d then dropLit p s else none

/-- Undo the writer's entity escaping. -/
def unesc : List Char → List Char
  | '&' :: 'a' :: 'm' :: 'p' :: ';' :: r => '&' :: unesc r
  | '&' :: 'l' :: 't' :: ';' :: r => '<' :: unesc r
  | '&' :: 'g' :: 't' :: ';' :: r => '>' :: unesc r
  | c :: r => c :: unesc r
  | [] => []

/-- Decimal digit test. -/
def isDigitCh (c : Char) : Bool := 48 ≤ c.toNat && c.toNat ≤ 57

/-- Value of a decimal digit string, most significant first. -/
def digitsVal (s : List Char) : Nat := s.foldl (fun a c => 10 * a + (c.toNat - 48)) 0

/-- Integer element content, as `int(text)` on canonical decimal text. -/
def parseIntContent (s : List Char) : Option Int :=
  match s with
  | [] => none
  | c :: rest =>
      if c = '-' then
        if rest.isEmpty then none
        else if rest.all isDigitCh then some (-(digitsVal rest : Int)) else none
      else if (c :: rest).all isDigitCh then some ((digitsVal (c :: rest) : Int)) else none

mutual
/-- Read one plist element. -/
def parseValue : Nat → List Char → Option (PValue × List Char)
  | 0, _ => none
  | fuel+1, input =>
    let s := skipWs input
    match dropLit "<string>".toList s with
    | some r =>
        match dropLit "</string>".toList (r.dropWhile (fun c => c != '<')) with
        | some r3 => some (.pstr (unesc (r.takeWhile (fun c => c != '<'))), r3)
        | none => none
    | none =>
    match dropLit "<integer>".toList s with
    | some r =>
        match dropLit "</integer>".toList (r.dropWhile (fun c => c != '<')) with
        | some r3 =>
            match parseIntContent (r.takeWhile (fun c => c != '<')) with
            | some n => some (.pint n, r3)
            | none => none
        | none => none
    | none =>
    match dropLit "<true/>".toList s with
    | some r => some (.pbool true, r)
    | none =>
    match dropLit "<false/>".toList s with
    | some r => some (.pbool false, r)
    | none =>
    match dropLit "<dict/>".toList s with
    | some r => some (.pdict [], r)
    | none =>
    match dropLit "<dict>".toList s with
    | some r =>
        match parseEntries fuel r with
        | some (es, r2) => some (.pdict es, r2)
        | none => none
    | none =>
    match dropLit "<array/>".toList s with
    | some r => some (.parr [], r)
    | none =>
    match dropLit "<array>".toList s with
    | some r =>
        match parseItems fuel r with
        | some (xs, r2) => some (.parr xs, r2)
        | none => none
    | none => none

/-- Read dictionary entries up to the closing dict tag. -/
def parseEntries : Nat → List Char → Option (List (List Char × PValue) × List Char)
  | 0, _ => none
  | fuel+1, input =>
    match dropLit "</dict>".toList (skipWs input) with
    | some r => some ([], r)
    | none =>
      match dropLit "<key>".toList (skipWs input) with
      | some r =>
          match dropLit "</key>".toList (r.dropWhile (fun c => c != '<')) with
          | some r3 =>
              match parseValue fuel r3 with
              | some (v, r4) =>
                  match parseEntries fuel r4 with
                  | some (es, r5) => some ((unesc (r.takeWhile (fun c => c != '<')), v) :: es, r5)
                  | none => none
              | none => none
          | none => none
      | none => none

/-- Read array items up to the closing array tag. -/
def parseItems : Nat → List Char → Option (List PValue × List Char)
  | 0, _ => none
  | fuel+1, input =>
    match dropLit "</array>".toList (skipWs input) with
    | some r => some ([], r)
    | none =>
        match parseValue fuel input with
        | some (v, r) =>
            match parseItems fuel r with
            | some (xs, r2) => some (v :: xs, r2)
            | none => none
        | none => none
end

/-- Model of `plistlib.loads` on the documents of this program: expect the fixed
prolog, one value, the closing plist tag, and nothing else. -/
def plistlib_loads (s : List Char) : Option PValue :=
  match dropLit plistHeader s with
  | none => none
  | some s1 =>
    match parseValue (s1.length + 1) s1 with
    | some (v, rest) =>
        match dropLit "</plist>\n".toList (skipWs rest) with
        | some [] => some v
        | some (_ :: _) => none
        | none => none
    | none => none

mutual
/-- Fuel sufficient for the reader on this value's serialization. -/
def fuelV : PValue → Nat
  | .pstr _ => 1
  | .pint _ => 1
  | .pbool _ => 1
  | .parr xs => 1 + fuelL xs
  | .pdict es => 1 + fuelE es
def fuelL : List PValue → Nat
  | [] => 1
  | x :: xs => 1 + fuelV x + fuelL xs
def fuelE : List (List Char × PValue) → Nat
  | [] => 1
  | (_, v) :: es => 1 + fuelV v + fuelE es
end

/-- Characters whose strings serialize and read back unchanged: no banned control
characters and no carriage return (entity escaping handles the rest). -/
def goodChar (c : Char) : Bool := !(bannedCtrl c) && c.toNat != 13

mutual
/-- Values whose serialization round-trips: good strings and keys, nonnegative
integers. -/
def goodV : PValue → Bool
  | .pstr s => s.all goodChar
  | .pint n => decide (0 ≤ n)
  | .pbool _ => true
  | .parr xs => goodL xs
  | .pdict es => goodE es
def goodL : List PValue → Bool
  | [] => true
  | x :: xs => goodV x && goodL xs
def goodE : List (List Char × PValue) → Bool
  | [] => true
  | (k, v) :: es => k.all goodChar && goodV v && goodE es
end

mutual
/-- Erase every `PayloadUUID` entry, recursively: the random-valued fields of the
document. -/
def eraseUuids : PValue → PValue
  | .pdict es => .pdict (eraseE es)
  | .parr xs => .parr (eraseL xs)
  | .pstr s => .pstr s
  | .pint n => .pint n
  | .pbool b => .pbool b
def eraseE : List (List Char × PValue) → List (List Char × PValue)
  | [] => []
  | (k, v) :: es =>
      if k = "PayloadUUID".toList then eraseE es else (k, eraseUuids v) :: eraseE es
def eraseL : List PValue → List PValue
  | [] => []
  | x :: xs => eraseUuids x :: eraseL xs
end

/-! ### Model of `ProfileHandler.do_GET` (src/ios_burp_setup.py:87-128) and
`get_local_ip` (src/ios_burp_setup.py:19-28) -/

/-- Constant `PROFILE_FILENAME` (src/ios_burp_setup.py:16), the served file's name. -/
def PROFILE_FILENAME : List Char := "burp-wifi-proxy.mobileconfig".toList

/-- An HTTP response as the handler produces it: status, headers, body bytes. -/
structure HttpResponse where
  status : Nat
  headers : List (List Char × List Char)
  body : List Char

/-- Model of `BaseHTTPRequestHandler.send_error`: the given status with an HTML
error body carrying the descriptive message. -/
def send_error (code : Nat) (message : List Char) : HttpResponse :=
  { status := code
    headers := [("Content-Type".toList, "text/html;charset=utf-8".toList)]
    body := message }

/-- The landing page written for the root path (src/ios_burp_setup.py:92-111). -/
def landing_page_html : List Char :=
  ("\n                <!doctype html>\n                <html lang=\"en\">\n                  <head>\n                    <meta charset=\"utf-8\">\n                    <title>Burp Suite Wi-Fi Proxy</title>\n                    <style>\n                      body \x7b font-family: -apple-system, BlinkMacSystemFont, sans-serif; text-align: center; padding: 3rem; \x7d\n                      a.button \x7b background: #0070f3; color: #fff; padding: 0.75rem 1.5rem; border-radius: 8px; text-decoration: none; \x7d\n                    </style>\n                  </head>\n                  <body>\n                    <h1>Install Wi-Fi Proxy Profile</h1>\n                    <p>Tap the button below on your iOS device to install the profile.</p>\n                    <p><a class=\"button\" href=\"/download\">Download</a></p>\n                  </body>\n                </html>\n                ").toList

/-- Model of `ProfileHandler.do_GET`.  The filesystem is explicit: whether
`self.profile_path.exists()` and the bytes `self.profile_path.read_bytes()`
would return; `profile_name` is `self.profile_path.name`. -/
def do_GET (profile_name : List Char) (profile_exists : Bool) (profile_bytes : List Char)
    (path : List Char) : HttpResponse :=
  if path = "/".toList ∨ path = [] then
    { status := 200
      headers := [("Content-Type".toList, "text/html; charset=utf-8".toList)]
      body := landing_page_html }
  else if path = "/download".toList then
    if profile_exists = false then send_error 404 "Profile not found".toList
    else
      { status := 200
        headers := [("Content-Type".toList, "application/x-apple-aspen-config".toList),
                    ("Content-Disposition".toList,
                      "attachment; filename=".toList ++ profile_name)]
        body := profile_bytes }
  else send_error 404 "Not found".toList

/-- Model of `get_local_ip`: `ip_address` starts as loopback; `sock.connect` may
raise `OSError` (first parameter), else `sock.getsockname()[0]` is read, which may
itself raise `OSError` (second parameter); both are caught and loopback returned. -/
def get_local_ip (connectResult : Except Unit Unit)
    (getsocknameResult : Except Unit (List Char)) : List Char :=
  match connectResult with
  | .error _ => "127.0.0.1".toList
  | .ok _ =>
    match getsocknameResult with
    | .error _ => "127.0.0.1".toList
    | .ok addr => addr

/-- The character class `[A-Za-z0-9.-]` named by the specification's sanitization
sentence. -/
def asciiIdentChar (c : Char) : Bool :=
  (48 ≤ c.toNat && c.toNat ≤ 57) || (65 ≤ c.toNat && c.toNat ≤ 90) ||
  (97 ≤ c.toNat && c.toNat ≤ 122) || c.toNat == 46 || c.toNat == 45

/-- Characters of `str(uuid.uuid4())`: lowercase hex digits and hyphens. -/
def uuidChar (c : Char) : Bool :=
  (48 ≤ c.toNat && c.toNat ≤ 57) || (97 ≤ c.toNat && c.toNat ≤ 102) || c.toNat == 45

/-- Strings free of the control characters the plist writer rejects. -/
abbrev NoCtrl (s : List Char) : Prop := ∀ c ∈ s, bannedCtrl c = false

/-! ## Lemmas about the sanitizer -/

theorem mem_stripDots {c : Char} {s : List Char} (h : c ∈ stripDots s) : c ∈ s := by
  unfold stripDots at h
  rw [List.mem_reverse] at h
  have h2 := List.Sublist.mem h (List.dropWhile_sublist _)
  rw [List.mem_reverse] at h2
  exact List.Sublist.mem h2 (List.dropWhile_sublist _)

theorem head?_dropWhile_not {p : Char → Bool} {l : List Char} {x : Char}
    (h : (l.dropWhile p).head? = some x) : p x = false := by
  induction l with
  | nil => simp [List.dropWhile] at h
  | cons a as ih =>
      rw [List.dropWhile_cons] at h
      by_cases hp : p a = true
      · rw [if_pos hp] at h; exact ih h
      · rw [if_neg hp] at h
        rw [List.head?_cons] at h
        have hax : a = x := Option.some.inj h
        rw [← hax]
        exact Bool.eq_false_iff.mpr hp

theorem dropWhile_eq_self_of {p : Char → Bool} {l : List Char}
    (h : ∀ x, l.head? = some x → p x = false) : l.dropWhile p = l := by
  cases l with
  | nil => rfl
  | cons a as =>
      rw [List.dropWhile_cons, if_neg]
      rw [h a rfl]
      simp

theorem getLast?_dropWhile_of_ne_nil {p : Char → Bool} {l : List Char}
    (h : l.dropWhile p ≠ []) : (l.dropWhile p).getLast? = l.getLast? := by
  conv_rhs => rw [← List.takeWhile_append_dropWhile p l]
  rw [List.getLast?_append]
  cases hd : (l.dropWhile p).getLast? with
  | none => exact absurd (List.getLast?_eq_none_iff.mp hd) h
  | some y => rw [Option.or_some]

theorem stripDots_no_trail {s : List Char} {x : Char}
    (h : (stripDots s).getLast? = some x) : (x == '.') = false := by
  unfold stripDots at h
  rw [List.getLast?_reverse] at h
  exact @head?_dropWhile_not (fun c => c == '.') _ _ h

theorem stripDots_no_lead {s : List Char} {x : Char}
    (h : (stripDots s).head? = some x) : (x == '.') = false := by
  unfold stripDots at h
  rw [List.head?_reverse] at h
  have hne : ((s.dropWhile fun c => c == '.').reverse.dropWhile
      (fun c => c == '.')) ≠ [] := by
    intro he; rw [he] at h; exact Option.noConfusion h
  rw [getLast?_dropWhile_of_ne_nil hne, List.getLast?_reverse] at h
  exact @head?_dropWhile_not (fun c => c == '.') _ _ h

theorem stripDots_idem (s : List Char) : stripDots (stripDots s) = stripDots s := by
  have h1 : (stripDots s).dropWhile (fun c => c == '.') = stripDots s :=
    dropWhile_eq_self_of (fun x hx => stripDots_no_lead hx)
  have h2 : ((stripDots s).reverse).dropWhile (fun c => c == '.')
      = (stripDots s).reverse :=
    dropWhile_eq_self_of (fun x hx => by
      rw [List.head?_reverse] at hx; exact stripDots_no_trail hx)
  conv_lhs => rw [stripDots, h1, h2, List.reverse_reverse]

/-- Claim C10: the sanitization function is idempotent. -/
theorem sanitize_identifier_idempotent (s : List Char) :
    sanitize_identifier (sanitize_identifier s) = sanitize_identifier s := by
  have hfe : (sanitize_identifier s).filter keepChar = sanitize_identifier s :=
    List.filter_eq_self.mpr (fun a ha => List.of_mem_filter (mem_stripDots ha))
  conv_lhs => rw [sanitize_identifier, hfe]
  exact stripDots_idem _

/-- Claim C1 (corrected): the sanitized identifier with fallback is always non-empty,
all its characters pass the sanitizer's own filter (Unicode-alphanumeric, hyphen or
dot), and it has no leading or trailing dot. -/
theorem sanitized_ssid_shape (s : List Char) :
    sanitized_ssid s ≠ [] ∧ (∀ c ∈ sanitized_ssid s, keepChar c = true) ∧
    (sanitized_ssid s).head? ≠ some '.' ∧ (sanitized_ssid s).getLast? ≠ some '.' := by
  unfold sanitized_ssid
  by_cases h : sanitize_identifier s = []
  · rw [if_pos h]
    exact ⟨by decide, by decide, by decide, by decide⟩
  · rw [if_neg h]
    refine ⟨h, ?_, ?_, ?_⟩
    · intro c hc
      exact List.of_mem_filter (mem_stripDots hc)
    · intro hx
      exact absurd (@stripDots_no_lead (s.filter keepChar) _ hx) (by decide)
    · intro hx
      exact absurd (@stripDots_no_trail (s.filter keepChar) _ hx) (by decide)

/-- Claim C1 counterexample: for the input consisting of the single character
U+00E9 (which Python's `str.isalnum` accepts), the sanitized identifier contains a
character outside `[A-Za-z0-9.-]`. -/
theorem sanitized_ssid_ascii_cex :
    ¬ (∀ c ∈ sanitized_ssid [Char.ofNat 233], asciiIdentChar c = true) := by
  decide

/-- Claim C9: the profile-level and payload-level `PayloadIdentifier` strings share
the sanitized suffix but carry distinct fixed prefixes, so they are unequal. -/
theorem payload_identifiers_distinct (ssid proxy u1 u2 : List Char) :
    pLookup (build_profile_dict ssid proxy u1 u2) ("PayloadIdentifier".toList)
        = some (.pstr ("com.example.burp-proxy.".toList ++ sanitized_ssid ssid)) ∧
    lookupE (wifi_payload ssid proxy u2) ("PayloadIdentifier".toList)
        = some (.pstr ("com.example.wifi.".toList ++ sanitized_ssid ssid)) ∧
    ("com.example.burp-proxy.".toList ++ sanitized_ssid ssid)
        ≠ ("com.example.wifi.".toList ++ sanitized_ssid ssid) := by
  refine ⟨rfl, rfl, ?_⟩
  intro h
  have hl := congrArg List.length h
  rw [List.length_append, List.length_append] at hl
  have e1 : ("com.example.burp-proxy.".toList).length = 23 := rfl
  have e2 : ("com.example.wifi.".toList).length = 17 := rfl
  rw [e1, e2] at hl
  omega

/-- Claim C3: the constructed document has exactly one payload, whose `SSID_STR` is
the network name verbatim, whose `ProxyServer` is the proxy host exactly, and whose
`ProxyServerPort` is 8082. -/
theorem payload_fields_exact (ssid proxy u1 u2 : List Char) :
    pLookup (build_profile_dict ssid proxy u1 u2) ("PayloadContent".toList)
        = some (.parr [.pdict (wifi_payload ssid proxy u2)]) ∧
    lookupE (wifi_payload ssid proxy u2) ("SSID_STR".toList) = some (.pstr ssid) ∧
    lookupE (wifi_payload ssid proxy u2) ("ProxyServer".toList) = some (.pstr proxy) ∧
    lookupE (wifi_payload ssid proxy u2) ("ProxyServerPort".toList) = some (.pint 8082) :=
  ⟨rfl, rfl, rfl, rfl⟩

/-- Claim C7: `GET /download` returns 200 with the aspen-config content type, the
attachment disposition with the fixed filename, and the file bytes when the file
exists; it returns 404 with the descriptive reason when the file is missing. -/
theorem do_GET_download (bytes : List Char) :
    do_GET PROFILE_FILENAME true bytes ("/download".toList)
        = { status := 200
            headers := [("Content-Type".toList, "application/x-apple-aspen-config".toList),
                        ("Content-Disposition".toList,
                          "attachment; filename=".toList ++ PROFILE_FILENAME)]
            body := bytes } ∧
    do_GET PROFILE_FILENAME false bytes ("/download".toList)
        = send_error 404 ("Profile not found".toList) :=
  ⟨rfl, rfl⟩

/-- Claim C8: `get_local_ip` always returns a string; on an `OSError` from either
socket operation it returns the loopback address, and otherwise the discovered
address. -/
theorem get_local_ip_fallback (gs : Except Unit (List Char)) (addr : List Char) :
    get_local_ip (.error ()) gs = "127.0.0.1".toList ∧
    get_local_ip (.ok ()) (.error ()) = "127.0.0.1".toList ∧
    get_local_ip (.ok ()) (.ok addr) = addr :=
  ⟨rfl, rfl, rfl⟩

/-- Claim C5: two builds from identical inputs but fresh random draws differ in the
profile-level and payload-level `PayloadUUID` fields, and agree everywhere else
(the documents are equal once the `PayloadUUID` entries are erased). -/
theorem build_fresh_uuids_rest_deterministic (ssid proxy u1 u2 v1 v2 : List Char)
    (h1 : u1 ≠ v1) (h2 : u2 ≠ v2) :
    pLookup (build_profile_dict ssid proxy u1 u2) ("PayloadUUID".toList)
        ≠ pLookup (build_profile_dict ssid proxy v1 v2) ("PayloadUUID".toList) ∧
    lookupE (wifi_payload ssid proxy u2) ("PayloadUUID".toList)
        ≠ lookupE (wifi_payload ssid proxy v2) ("PayloadUUID".toList) ∧
    eraseUuids (build_profile_dict ssid proxy u1 u2)
        = eraseUuids (build_profile_dict ssid proxy v1 v2) := by
  refine ⟨?_, ?_, ?_⟩
  · intro h
    have e1 : pLookup (build_profile_dict ssid proxy u1 u2) ("PayloadUUID".toList)
        = some (.pstr u1) := rfl
    have e2 : pLookup (build_profile_dict ssid proxy v1 v2) ("PayloadUUID".toList)
        = some (.pstr v1) := rfl
    rw [e1, e2] at h
    have hp : PValue.pstr u1 = PValue.pstr v1 := Option.some.inj h
    injection hp with hu
    exact h1 hu
  · intro h
    have e1 : lookupE (wifi_payload ssid proxy u2) ("PayloadUUID".toList)
        = some (.pstr u2) := rfl
    have e2 : lookupE (wifi_payload ssid proxy v2) ("PayloadUUID".toList)
        = some (.pstr v2) := rfl
    rw [e1, e2] at h
    have hp : PValue.pstr u2 = PValue.pstr v2 := Option.some.inj h
    injection hp with hu
    exact h2 hu
  · rfl

/-- Witness for claim C5 at concrete distinct draws. -/
theorem build_fresh_uuids_rest_deterministic_witness :
    ("1111".toList ≠ "2222".toList ∧ "aaaa".toList ≠ "bbbb".toList) ∧
    (pLookup (build_profile_dict "TestNet".toList "10.0.0.5".toList "1111".toList "aaaa".toList)
        ("PayloadUUID".toList)
      ≠ pLookup (build_profile_dict "TestNet".toList "10.0.0.5".toList "2222".toList "bbbb".toList)
        ("PayloadUUID".toList) ∧
     lookupE (wifi_payload "TestNet".toList "10.0.0.5".toList "aaaa".toList) ("PayloadUUID".toList)
      ≠ lookupE (wifi_payload "TestNet".toList "10.0.0.5".toList "bbbb".toList) ("PayloadUUID".toList) ∧
     eraseUuids (build_profile_dict "TestNet".toList "10.0.0.5".toList "1111".toList "aaaa".toList)
      = eraseUuids (build_profile_dict "TestNet".toList "10.0.0.5".toList "2222".toList "bbbb".toList)) :=
  ⟨⟨by decide, by decide⟩,
    build_fresh_uuids_rest_deterministic _ _ _ _ _ _ (by decide) (by decide)⟩

/-- Claim C6: the returned document is the byte serialization (XML property list,
Apple configuration-profile schema) of an outer dictionary carrying exactly the
description, display name, sanitized-prefixed identifier, organization,
type Configuration, version 1, profile `PayloadUUID`, and single-element payload
list entries. -/
theorem profile_document_structure (ssid proxy u1 u2 : List Char) :
    build_profile ssid proxy u1 u2
        = plistlib_dumps (build_profile_dict ssid proxy u1 u2) ∧
    build_profile_dict ssid proxy u1 u2
        = .pdict (profile_outer_entries ssid proxy u1 u2) ∧
    (profile_outer_entries ssid proxy u1 u2).map Prod.fst
        = ["PayloadContent".toList, "PayloadDescription".toList,
           "PayloadDisplayName".toList, "PayloadIdentifier".toList,
           "PayloadOrganization".toList, "PayloadType".toList,
           "PayloadUUID".toList, "PayloadVersion".toList] ∧
    lookupE (profile_outer_entries ssid proxy u1 u2) ("PayloadContent".toList)
        = some (.parr [.pdict (wifi_payload ssid proxy u2)]) ∧
    lookupE (profile_outer_entries ssid proxy u1 u2) ("PayloadDescription".toList)
        = some (.pstr "Installs Wi-Fi proxy settings for Burp Suite".toList) ∧
    lookupE (profile_outer_entries ssid proxy u1 u2) ("PayloadDisplayName".toList)
        = some (.pstr "Burp Suite Wi-Fi Proxy".toList) ∧
    lookupE (profile_outer_entries ssid proxy u1 u2) ("PayloadIdentifier".toList)
        = some (.pstr ("com.example.burp-proxy.".toList ++ sanitized_ssid ssid)) ∧
    lookupE (profile_outer_entries ssid proxy u1 u2) ("PayloadOrganization".toList)
        = some (.pstr "Burp Proxy Setup".toList) ∧
    lookupE (profile_outer_entries ssid proxy u1 u2) ("PayloadType".toList)
        = some (.pstr "Configuration".toList) ∧
    lookupE (profile_outer_entries ssid proxy u1 u2) ("PayloadVersion".toList)
        = some (.pint 1) ∧
    lookupE (profile_outer_entries ssid proxy u1 u2) ("PayloadUUID".toList)
        = some (.pstr u1) :=
  ⟨rfl, rfl, rfl, rfl, rfl, rfl, rfl, rfl, rfl, rfl, rfl⟩

/-- Claim C2 counterexample: on a network name containing the NUL character the
serializer raises (CPython plistlib rejects control characters in strings), so
`build_profile` does not return bytes. -/
theorem build_profile_ctrl_raises :
    build_profile [Char.ofNat 0] ("10.0.0.5".toList)
        ("11111111-2222-3333-4444-555555555555".toList)
        ("aaaaaaaa-bbbb-cccc-dddd-eeeeeeeeeeee".toList) = .error () := rfl

theorem mem_sanitized_keep {s : List Char} {c : Char} (hc : c ∈ sanitized_ssid s) :
    keepChar c = true := by
  unfold sanitized_ssid at hc
  by_cases h : sanitize_identifier s = []
  · rw [if_pos h] at hc
    fin_cases hc <;> decide
  · rw [if_neg h] at hc
    exact List.of_mem_filter (mem_stripDots hc)

theorem keepChar_not_ctrl {c : Char} (h : keepChar c = true) : bannedCtrl c = false := by
  rw [Bool.eq_false_iff]
  intro hb
  simp only [bannedCtrl, Bool.or_eq_true, Bool.and_eq_true, decide_eq_true_eq,
    beq_iff_eq] at hb
  simp only [keepChar, pyIsAlnum, Bool.or_eq_true, Bool.and_eq_true, decide_eq_true_eq,
    beq_iff_eq, bne_iff_ne, Ne] at h
  omega

theorem noCtrl_sanitized (s : List Char) : NoCtrl (sanitized_ssid s) :=
  fun _ hc => keepChar_not_ctrl (mem_sanitized_keep hc)

theorem any_ctrl_false {s : List Char} (h : NoCtrl s) : s.any bannedCtrl = false :=
  List.any_eq_false.mpr (fun x hx => by rw [h x hx]; exact Bool.false_ne_true)

theorem noCtrl_append {a b : List Char} (ha : NoCtrl a) (hb : NoCtrl b) :
    NoCtrl (a ++ b) := by
  intro c hc
  rcases List.mem_append.mp hc with h | h
  · exact ha c h
  · exact hb c h

/-- Lean `Char` excludes the surrogate range, so no string of this embedding can
reach the writer's `UnicodeEncodeError` path. -/
theorem char_no_surrogate (c : Char) : surrChar c = false := by
  rw [Bool.eq_false_iff]
  intro hb
  simp only [surrChar, Bool.and_eq_true, decide_eq_true_eq] at hb
  have h := c.valid
  simp only [UInt32.isValidChar, Nat.isValidChar] at h
  have he : c.toNat = c.val.toNat := rfl
  rw [he] at hb
  omega

theorem any_surr_false (s : List Char) : s.any surrChar = false :=
  List.any_eq_false.mpr (fun c _ => by
    rw [char_no_surrogate c]
    exact Bool.false_ne_true)

/-- Claim C2 (corrected): `build_profile` returns bytes for every pair of input
strings of Unicode scalar values (the strings of this embedding; CPython strings
holding lone surrogates make the writer raise `UnicodeEncodeError` instead) that
are free of the control characters the plist writer rejects (the random draws of
`str(uuid.uuid4())` are always such strings). -/
theorem build_profile_total (ssid proxy u1 u2 : List Char)
    (hs : NoCtrl ssid) (hp : NoCtrl proxy) (h1 : NoCtrl u1) (h2 : NoCtrl u2) :
    ∃ bytes, build_profile ssid proxy u1 u2 = .ok bytes := by
  have hsan : (sanitized_ssid ssid).any bannedCtrl = false :=
    any_ctrl_false (noCtrl_sanitized ssid)
  have hbad : hasBadV (build_profile_dict ssid proxy u1 u2) = false := by
    simp [build_profile_dict, profile_outer_entries, wifi_payload, hasBadV, hasBadE, hasBadL,
      List.any_append, hsan, any_ctrl_false hs, any_ctrl_false hp, any_ctrl_false h1,
      any_ctrl_false h2, bannedCtrl]
  have hsurr : hasSurrV (build_profile_dict ssid proxy u1 u2) = false := by
    simp [build_profile_dict, profile_outer_entries, wifi_payload, hasSurrV, hasSurrE,
      hasSurrL, any_surr_false, char_no_surrogate]
  refine ⟨plistHeader ++ writeV 0 (canon (build_profile_dict ssid proxy u1 u2))
      ++ "</plist>\n".toList, ?_⟩
  unfold build_profile plistlib_dumps
  rw [hbad, hsurr]
  simp

/-- Witness for claim C2 at concrete control-character-free inputs. -/
theorem build_profile_total_witness :
    (NoCtrl ("TestNet".toList) ∧ NoCtrl ("10.0.0.5".toList) ∧
     NoCtrl ("11111111-2222-3333-4444-555555555555".toList) ∧
     NoCtrl ("aaaaaaaa-bbbb-cccc-dddd-eeeeeeeeeeee".toList)) ∧
    ∃ bytes, build_profile ("TestNet".toList) ("10.0.0.5".toList)
        ("11111111-2222-3333-4444-555555555555".toList)
        ("aaaaaaaa-bbbb-cccc-dddd-eeeeeeeeeeee".toList) = .ok bytes :=
  ⟨⟨by decide, by decide, by decide, by decide⟩,
    build_profile_total _ _ _ _ (by decide) (by decide) (by decide) (by decide)⟩

/-! ## Round-trip of the writer and the reader -/

theorem litStringO : "<string>".toList = ['<', 's', 't', 'r', 'i', 'n', 'g', '>'] := rfl

theorem litStringC : "</string>\n".toList
    = ['<', '/', 's', 't', 'r', 'i', 'n', 'g', '>', '\n'] := rfl

theorem litIntegerO : "<integer>".toList = ['<', 'i', 'n', 't', 'e', 'g', 'e', 'r', '>'] := rfl

theorem litIntegerC : "</integer>\n".toList
    = ['<', '/', 'i', 'n', 't', 'e', 'g', 'e', 'r', '>', '\n'] := rfl

theorem litTrue : "<true/>\n".toList = ['<', 't', 'r', 'u', 'e', '/', '>', '\n'] := rfl

theorem litFalse : "<false/>\n".toList = ['<', 'f', 'a', 'l', 's', 'e', '/', '>', '\n'] := rfl

theorem litArrE : "<array/>\n".toList = ['<', 'a', 'r', 'r', 'a', 'y', '/', '>', '\n'] := rfl

theorem litArrO : "<array>\n".toList = ['<', 'a', 'r', 'r', 'a', 'y', '>', '\n'] := rfl

theorem litArrC : "</array>\n".toList = ['<', '/', 'a', 'r', 'r', 'a', 'y', '>', '\n'] := rfl

theorem litDictE : "<dict/>\n".toList = ['<', 'd', 'i', 'c', 't', '/', '>', '\n'] := rfl

theorem litDictO : "<dict>\n".toList = ['<', 'd', 'i', 'c', 't', '>', '\n'] := rfl

theorem litDictC : "</dict>\n".toList = ['<', '/', 'd', 'i', 'c', 't', '>', '\n'] := rfl

theorem litKeyO : "<key>".toList = ['<', 'k', 'e', 'y', '>'] := rfl

theorem litKeyC : "</key>\n".toList = ['<', '/', 'k', 'e', 'y', '>', '\n'] := rfl

theorem litStringCl : "</string>".toList = ['<', '/', 's', 't', 'r', 'i', 'n', 'g', '>'] := rfl

theorem litIntegerCl : "</integer>".toList
    = ['<', '/', 'i', 'n', 't', 'e', 'g', 'e', 'r', '>'] := rfl

theorem litArrCl : "</array>".toList = ['<', '/', 'a', 'r', 'r', 'a', 'y', '>'] := rfl

theorem litDictCl : "</dict>".toList = ['<', '/', 'd', 'i', 'c', 't', '>'] := rfl

theorem litKeyCl : "</key>".toList = ['<', '/', 'k', 'e', 'y', '>'] := rfl

theorem litTrueO : "<true/>".toList = ['<', 't', 'r', 'u', 'e', '/', '>'] := rfl

theorem litFalseO : "<false/>".toList = ['<', 'f', 'a', 'l', 's', 'e', '/', '>'] := rfl

theorem litDictEO : "<dict/>".toList = ['<', 'd', 'i', 'c', 't', '/', '>'] := rfl

theorem litDictOO : "<dict>".toList = ['<', 'd', 'i', 'c', 't', '>'] := rfl

theorem litArrEO : "<array/>".toList = ['<', 'a', 'r', 'r', 'a', 'y', '/', '>'] := rfl

theorem litArrOO : "<array>".toList = ['<', 'a', 'r', 'r', 'a', 'y', '>'] := rfl

theorem skipWs_append_ws {w : List Char} (r : List Char)
    (hw : ∀ c ∈ w, isWsChar c = true) : skipWs (w ++ r) = skipWs r := by
  induction w with
  | nil => rfl
  | cons a as ih =>
      rw [List.cons_append]
      unfold skipWs
      rw [List.dropWhile_cons, if_pos (hw a (List.mem_cons_self _ _))]
      exact ih (fun c hc => hw c (List.mem_cons_of_mem a hc))

theorem skipWs_cons_not {c : Char} (r : List Char) (h : isWsChar c = false) :
    skipWs (c :: r) = c :: r := by
  unfold skipWs
  rw [List.dropWhile_cons, if_neg]
  rw [h]
  simp

theorem skipWs_lt (r : List Char) : skipWs ('<' :: r) = '<' :: r := by
  unfold skipWs
  rw [List.dropWhile_cons, if_neg]
  decide

theorem ws_tabs (n : Nat) : ∀ c ∈ tabs n, isWsChar c = true := by
  intro c hc
  rw [List.eq_of_mem_replicate hc]
  decide

theorem skipWs_tabs_append (n : Nat) (r : List Char) :
    skipWs (tabs n ++ r) = skipWs r :=
  skipWs_append_ws r (ws_tabs n)

theorem dropLit_self (p r : List Char) : dropLit p (p ++ r) = some r := by
  induction p with
  | nil => rfl
  | cons c cs ih => rw [List.cons_append]; unfold dropLit; rw [if_pos rfl]; exact ih

theorem takeWhile_append_lt {a : List Char} (h : ∀ c ∈ a, (c != '<') = true)
    (t : List Char) :
    (a ++ '<' :: t).takeWhile (fun c => c != '<') = a := by
  induction a with
  | nil => simp [List.takeWhile_cons]
  | cons c cs ih =>
      rw [List.cons_append, List.takeWhile_cons, if_pos (h c (List.mem_cons_self _ _))]
      rw [ih (fun c hc => h c (List.mem_cons_of_mem _ hc))]

theorem dropWhile_append_lt {a : List Char} (h : ∀ c ∈ a, (c != '<') = true)
    (t : List Char) :
    (a ++ '<' :: t).dropWhile (fun c => c != '<') = '<' :: t := by
  induction a with
  | nil => simp [List.dropWhile_cons]
  | cons c cs ih =>
      rw [List.cons_append, List.dropWhile_cons, if_pos (h c (List.mem_cons_self _ _))]
      exact ih (fun c hc => h c (List.mem_cons_of_mem _ hc))

theorem escChar_no_lt {c x : Char} (hx : x ∈ escChar c) : (x != '<') = true := by
  unfold escChar at hx
  by_cases h1 : c = '&'
  · rw [if_pos h1] at hx; fin_cases hx <;> decide
  · rw [if_neg h1] at hx
    by_cases h2 : c = '<'
    · rw [if_pos h2] at hx; fin_cases hx <;> decide
    · rw [if_neg h2] at hx
      by_cases h3 : c = '>'
      · rw [if_pos h3] at hx; fin_cases hx <;> decide
      · rw [if_neg h3] at hx
        rcases List.mem_singleton.mp hx with rfl
        simp only [bne_iff_ne, Ne]
        intro he
        exact h2 he

theorem escapeStr_no_lt {s : List Char} : ∀ x ∈ escapeStr s, (x != '<') = true := by
  intro x hx
  unfold escapeStr at hx
  rcases List.mem_flatMap.mp hx with ⟨c, _, hmem⟩
  exact escChar_no_lt hmem

theorem unesc_cons_ne {c : Char} (r : List Char) (h : c ≠ '&') :
    unesc (c :: r) = c :: unesc r := by
  rw [unesc.eq_def]
  split
  · rename_i heq; injection heq with h1 _; exact absurd h1 h
  · rename_i heq; injection heq with h1 _; exact absurd h1 h
  · rename_i heq; injection heq with h1 _; exact absurd h1 h
  · rename_i heq; injection heq with h1 h2; rw [h1, h2]
  · rename_i heq; exact List.noConfusion heq

theorem unesc_escape (s : List Char) : unesc (s.flatMap escChar) = s := by
  induction s with
  | nil => rfl
  | cons c r ih =>
      rw [List.flatMap_cons]
      by_cases h1 : c = '&'
      · subst h1
        have he : escChar '&' = ['&', 'a', 'm', 'p', ';'] := rfl
        rw [he]
        simp only [List.cons_append, List.nil_append]
        rw [unesc, ih]
      · by_cases h2 : c = '<'
        · subst h2
          have he : escChar '<' = ['&', 'l', 't', ';'] := rfl
          rw [he]
          simp only [List.cons_append, List.nil_append]
          rw [unesc, ih]
        · by_cases h3 : c = '>'
          · subst h3
            have he : escChar '>' = ['&', 'g', 't', ';'] := rfl
            rw [he]
            simp only [List.cons_append, List.nil_append]
            rw [unesc, ih]
          · rw [escChar, if_neg h1, if_neg h2, if_neg h3,
              List.singleton_append, unesc_cons_ne _ h1, ih]

theorem crlf_eq_self {s : List Char} (h : '\r' ∉ s) : crlf s = s := by
  induction s using crlf.induct with
  | case1 => rfl
  | case2 c => rfl
  | case3 c d r h2 ih =>
      rw [h2.1] at h
      simp at h
  | case4 c d r h2 ih =>
      rw [crlf, if_neg h2, ih]
      intro hm
      exact h (List.mem_cons_of_mem _ hm)

theorem map_cr_id {s : List Char} (hcr : '\r' ∉ s) :
    s.map (fun c => if c = '\r' then '\n' else c) = s := by
  induction s with
  | nil => rfl
  | cons c r ih =>
      have hne : c ≠ '\r' := by
        intro he
        subst he
        exact hcr (List.mem_cons_self _ _)
      rw [List.map_cons, if_neg hne, ih (fun hm => hcr (List.mem_cons_of_mem _ hm))]

theorem normCR_eq_self {s : List Char} (h : ∀ c ∈ s, goodChar c = true) : normCR s = s := by
  have hcr : '\r' ∉ s := by
    intro hm
    exact absurd (h _ hm) (by decide)
  unfold normCR
  rw [crlf_eq_self hcr, map_cr_id hcr]

theorem unesc_escapeStr {s : List Char} (h : ∀ c ∈ s, goodChar c = true) :
    unesc (escapeStr s) = s := by
  unfold escapeStr
  rw [normCR_eq_self h]
  exact unesc_escape s

theorem natDigitsAux_irrel : ∀ f1 : Nat, ∀ f2 n : Nat, n < f1 → n < f2 →
    natDigitsAux f1 n = natDigitsAux f2 n := by
  intro f1
  induction f1 with
  | zero => intro f2 n h1 _; exact absurd h1 (by omega)
  | succ f ih =>
      intro f2 n h1 h2
      cases f2 with
      | zero => exact absurd h2 (by omega)
      | succ g =>
          by_cases hn : n < 10
          · rw [natDigitsAux, natDigitsAux, if_pos hn, if_pos hn]
          · rw [natDigitsAux, natDigitsAux, if_neg hn, if_neg hn]
            have hd : n / 10 < n := Nat.div_lt_self (by omega) (by omega)
            congr 1
            exact ih g (n / 10) (by omega) (by omega)

theorem natDigits_lt10 {n : Nat} (h : n < 10) : natDigits n = [digitCh n] := by
  unfold natDigits
  rw [natDigitsAux, if_pos h]

theorem natDigits_ge10 {n : Nat} (h : 10 ≤ n) :
    natDigits n = natDigits (n / 10) ++ [digitCh (n % 10)] := by
  have hd : n / 10 < n := Nat.div_lt_self (by omega) (by omega)
  conv_lhs => rw [natDigits, natDigitsAux, if_neg (by omega)]
  rw [natDigitsAux_irrel n (n / 10 + 1) (n / 10) (by omega) (by omega)]
  rfl

theorem digitCh_isDigit {d : Nat} (h : d < 10) : isDigitCh (digitCh d) = true := by
  interval_cases d <;> decide

theorem digitCh_val {d : Nat} (h : d < 10) : (digitCh d).toNat = 48 + d := by
  interval_cases d <;> decide

theorem natDigits_digits (n : Nat) : ∀ c ∈ natDigits n, isDigitCh c = true := by
  induction n using Nat.strong_induction_on with
  | _ n ih =>
      by_cases hn : n < 10
      · rw [natDigits_lt10 hn]
        intro c hc
        rw [List.mem_singleton.mp hc]
        exact digitCh_isDigit hn
      · rw [natDigits_ge10 (by omega)]
        intro c hc
        rcases List.mem_append.mp hc with hc | hc
        · exact ih (n / 10) (Nat.div_lt_self (by omega) (by omega)) c hc
        · rw [List.mem_singleton.mp hc]
          exact digitCh_isDigit (Nat.mod_lt _ (by omega))

theorem natDigits_ne_nil (n : Nat) : natDigits n ≠ [] := by
  by_cases hn : n < 10
  · rw [natDigits_lt10 hn]; exact List.cons_ne_nil _ _
  · rw [natDigits_ge10 (by omega)]
    intro h
    exact List.append_ne_nil_of_right_ne_nil _ (List.cons_ne_nil _ _) h

theorem digitsVal_natDigits (n : Nat) : digitsVal (natDigits n) = n := by
  induction n using Nat.strong_induction_on with
  | _ n ih =>
      by_cases hn : n < 10
      · rw [natDigits_lt10 hn]
        show 10 * 0 + ((digitCh n).toNat - 48) = n
        rw [digitCh_val hn]
        omega
      · rw [natDigits_ge10 (by omega)]
        unfold digitsVal
        rw [List.foldl_append]
        have hih := ih (n / 10) (Nat.div_lt_self (by omega) (by omega))
        unfold digitsVal at hih
        rw [hih]
        show 10 * (n / 10) + ((digitCh (n % 10)).toNat - 48) = n
        rw [digitCh_val (Nat.mod_lt _ (by omega))]
        omega

theorem isDigit_ne_minus {c : Char} (h : isDigitCh c = true) : c ≠ '-' := by
  intro he
  rw [he] at h
  exact absurd h (by decide)

theorem isDigit_ne_lt {c : Char} (h : isDigitCh c = true) : (c != '<') = true := by
  simp only [bne_iff_ne, Ne]
  intro he
  rw [he] at h
  exact absurd h (by decide)

theorem parseIntContent_natDigits (n : Nat) : parseIntContent (natDigits n) = some (n : Int) := by
  cases hnd : natDigits n with
  | nil => exact absurd hnd (natDigits_ne_nil n)
  | cons c rest =>
      have hdig : ∀ x ∈ c :: rest, isDigitCh x = true := by
        rw [← hnd]; exact natDigits_digits n
      rw [parseIntContent, if_neg (isDigit_ne_minus (hdig c (List.mem_cons_self _ _))),
        if_pos (List.all_eq_true.mpr hdig), ← hnd, digitsVal_natDigits]

theorem fuelV_pos (v : PValue) : 1 ≤ fuelV v := by
  cases v <;> simp [fuelV]

theorem fuelL_pos (xs : List PValue) : 1 ≤ fuelL xs := by
  cases xs with
  | nil => simp [fuelL]
  | cons x xs => simp [fuelL]; omega

theorem fuelE_pos (es : List (List Char × PValue)) : 1 ≤ fuelE es := by
  cases es with
  | nil => simp [fuelE]
  | cons e es => obtain ⟨k, v⟩ := e; simp [fuelE]; omega

/-- No closing tag can match where a value was written: every value's serialization
opens with a tag whose second character is not a slash. -/
theorem close_no_match (lit' : List Char) (v : PValue) (lvl : Nat) (w X : List Char)
    (hw : ∀ c ∈ w, isWsChar c = true) :
    dropLit ('<' :: '/' :: lit') (skipWs (w ++ writeV lvl v ++ X)) = none := by
  rw [List.append_assoc, skipWs_append_ws _ hw]
  cases v with
  | pstr s =>
      rw [writeV, litStringO]
      simp only [List.append_assoc, List.cons_append, skipWs_tabs_append]
      rw [skipWs_cons_not _ (by decide), dropLit, if_pos rfl, dropLit, if_neg (by decide)]
  | pint n =>
      rw [writeV, litIntegerO]
      simp only [List.append_assoc, List.cons_append, skipWs_tabs_append]
      rw [skipWs_cons_not _ (by decide), dropLit, if_pos rfl, dropLit, if_neg (by decide)]
  | pbool b =>
      cases b
      · rw [writeV, litFalse]
        simp only [List.append_assoc, List.cons_append, skipWs_tabs_append]
        rw [skipWs_cons_not _ (by decide), dropLit, if_pos rfl, dropLit, if_neg (by decide)]
      · rw [writeV, litTrue]
        simp only [List.append_assoc, List.cons_append, skipWs_tabs_append]
        rw [skipWs_cons_not _ (by decide), dropLit, if_pos rfl, dropLit, if_neg (by decide)]
  | parr xs =>
      cases xs
      · rw [writeV, litArrE]
        simp only [List.append_assoc, List.cons_append, skipWs_tabs_append]
        rw [skipWs_cons_not _ (by decide), dropLit, if_pos rfl, dropLit, if_neg (by decide)]
      · rw [writeV, litArrO]
        simp only [List.append_assoc, List.cons_append, skipWs_tabs_append]
        rw [skipWs_cons_not _ (by decide), dropLit, if_pos rfl, dropLit, if_neg (by decide)]
  | pdict es =>
      cases es
      · rw [writeV, litDictE]
        simp only [List.append_assoc, List.cons_append, skipWs_tabs_append]
        rw [skipWs_cons_not _ (by decide), dropLit, if_pos rfl, dropLit, if_neg (by decide)]
      · rw [writeV, litDictO]
        simp only [List.append_assoc, List.cons_append, skipWs_tabs_append]
        rw [skipWs_cons_not _ (by decide), dropLit, if_pos rfl, dropLit, if_neg (by decide)]

/-- Joint round-trip of the XML writer and reader: with enough fuel, reading back a
good value's serialization (after any leading whitespace) recovers the value and
leaves the writer's trailing newline plus the rest of the input. -/
theorem roundtrip (fuel : Nat) :
    (∀ v lvl (w rest : List Char), goodV v = true → fuelV v ≤ fuel →
        (∀ c ∈ w, isWsChar c = true) →
        parseValue fuel (w ++ writeV lvl v ++ rest) = some (v, '\n' :: rest)) ∧
    (∀ es lvl t (w rest : List Char), goodE es = true → fuelE es ≤ fuel →
        (∀ c ∈ w, isWsChar c = true) →
        parseEntries fuel (w ++ writeE lvl es ++ (tabs t ++ "</dict>".toList ++ rest))
          = some (es, rest)) ∧
    (∀ xs lvl t (w rest : List Char), goodL xs = true → fuelL xs ≤ fuel →
        (∀ c ∈ w, isWsChar c = true) →
        parseItems fuel (w ++ writeL lvl xs ++ (tabs t ++ "</array>".toList ++ rest))
          = some (xs, rest)) := by
  induction fuel with
  | zero =>
      refine ⟨?_, ?_, ?_⟩
      · intro v _ _ _ _ hf _
        exact absurd hf (by have := fuelV_pos v; omega)
      · intro es _ _ _ _ _ hf _
        exact absurd hf (by have := fuelE_pos es; omega)
      · intro xs _ _ _ _ _ hf _
        exact absurd hf (by have := fuelL_pos xs; omega)
  | succ fuel ih =>
      obtain ⟨ihV, ihE, ihL⟩ := ih
      refine ⟨?_, ?_, ?_⟩
      · intro v lvl w rest hg hf hw
        cases v with
        | pbool b =>
            cases b
            · rw [writeV, litFalse]
              simp only [List.append_assoc, List.cons_append, List.nil_append]
              rw [parseValue]
              simp only [skipWs_append_ws _ hw, skipWs_tabs_append, skipWs_lt, dropLit]
              simp
            · rw [writeV, litTrue]
              simp only [List.append_assoc, List.cons_append, List.nil_append]
              rw [parseValue]
              simp only [skipWs_append_ws _ hw, skipWs_tabs_append, skipWs_lt, dropLit]
              simp
        | pstr s =>
            have hall : ∀ c ∈ s, goodChar c = true := by
              rw [goodV] at hg
              exact List.all_eq_true.mp hg
            rw [writeV, litStringO, litStringC]
            simp only [List.append_assoc, List.cons_append, List.nil_append]
            rw [parseValue]
            simp only [skipWs_append_ws _ hw, skipWs_tabs_append, skipWs_lt, dropLit]
            simp only [Char.reduceEq, reduceIte]
            rw [takeWhile_append_lt escapeStr_no_lt, dropWhile_append_lt escapeStr_no_lt]
            simp only [dropLit, Char.reduceEq, reduceIte]
            rw [unesc_escapeStr hall]
        | pint n =>
            have hn0 : 0 ≤ n := by
              rw [goodV] at hg
              exact of_decide_eq_true hg
            have hdg : ∀ c ∈ natDigits n.toNat, (c != '<') = true :=
              fun c hc => isDigit_ne_lt (natDigits_digits _ c hc)
            rw [writeV, litIntegerO, litIntegerC, intRepr, if_neg (Int.not_lt.mpr hn0)]
            simp only [List.append_assoc, List.cons_append, List.nil_append]
            rw [parseValue]
            simp only [skipWs_append_ws _ hw, skipWs_tabs_append, skipWs_lt, dropLit, Char.reduceEq, reduceIte]
            rw [takeWhile_append_lt hdg, dropWhile_append_lt hdg]
            simp only [dropLit, Char.reduceEq, reduceIte]
            rw [parseIntContent_natDigits]
            rw [Int.toNat_of_nonneg hn0]
        | parr xs =>
            cases xs with
            | nil =>
                rw [writeV, litArrE]
                simp only [List.append_assoc, List.cons_append, List.nil_append]
                rw [parseValue]
                simp only [skipWs_append_ws _ hw, skipWs_tabs_append, skipWs_lt, dropLit,
                  Char.reduceEq, reduceIte]
            | cons x xs =>
                have hgl : goodL (x :: xs) = true := by rw [goodV] at hg; exact hg
                have hfl : fuelL (x :: xs) ≤ fuel := by rw [fuelV] at hf; omega
                rw [writeV, litArrO, litArrC]
                simp only [List.append_assoc, List.cons_append, List.nil_append]
                rw [parseValue]
                simp only [skipWs_append_ws _ hw, skipWs_tabs_append, skipWs_lt, dropLit,
                  Char.reduceEq, reduceIte]
                have hit := ihL (x :: xs) (lvl + 1) lvl ['\n'] ('\n' :: rest) hgl hfl (by decide)
                rw [litArrCl] at hit
                simp only [List.append_assoc, List.cons_append, List.nil_append] at hit
                rw [hit]
        | pdict es =>
            cases es with
            | nil =>
                rw [writeV, litDictE]
                simp only [List.append_assoc, List.cons_append, List.nil_append]
                rw [parseValue]
                simp only [skipWs_append_ws _ hw, skipWs_tabs_append, skipWs_lt, dropLit,
                  Char.reduceEq, reduceIte]
            | cons e es =>
                have hge : goodE (e :: es) = true := by rw [goodV] at hg; exact hg
                have hfe : fuelE (e :: es) ≤ fuel := by rw [fuelV] at hf; omega
                rw [writeV, litDictO, litDictC]
                simp only [List.append_assoc, List.cons_append, List.nil_append]
                rw [parseValue]
                simp only [skipWs_append_ws _ hw, skipWs_tabs_append, skipWs_lt, dropLit,
                  Char.reduceEq, reduceIte]
                have hit := ihE (e :: es) (lvl + 1) lvl ['\n'] ('\n' :: rest) hge hfe (by decide)
                rw [litDictCl] at hit
                simp only [List.append_assoc, List.cons_append, List.nil_append] at hit
                rw [hit]
      · intro es lvl t w rest hg hf hw
        cases es with
        | nil =>
            rw [writeE, litDictCl]
            simp only [List.append_assoc, List.cons_append, List.nil_append]
            rw [parseEntries]
            simp only [skipWs_append_ws _ hw, skipWs_tabs_append, skipWs_lt, dropLit,
              Char.reduceEq, reduceIte]
        | cons e es =>
            obtain ⟨k, v⟩ := e
            rw [goodE] at hg
            obtain ⟨⟨hk, hgv⟩, hges⟩ := by
              have := hg
              rw [Bool.and_eq_true, Bool.and_eq_true] at this
              exact this
            have hkall : ∀ c ∈ k, goodChar c = true := List.all_eq_true.mp hk
            rw [fuelE] at hf
            have hfv : fuelV v ≤ fuel := by omega
            have hfes : fuelE es ≤ fuel := by omega
            rw [writeE, litKeyO, litKeyC, litDictCl]
            simp only [List.append_assoc, List.cons_append, List.nil_append]
            rw [parseEntries]
            simp only [skipWs_append_ws _ hw, skipWs_tabs_append, skipWs_lt, dropLit,
              Char.reduceEq, reduceIte]
            rw [takeWhile_append_lt escapeStr_no_lt, dropWhile_append_lt escapeStr_no_lt]
            simp only [dropLit, Char.reduceEq, reduceIte]
            have hv := ihV v lvl ['\n']
              (writeE lvl es ++ (tabs t ++ "</dict>".toList ++ rest)) hgv hfv (by decide)
            rw [litDictCl] at hv
            simp only [List.append_assoc, List.cons_append, List.nil_append] at hv
            rw [hv]
            have he := ihE es lvl t ['\n'] rest hges hfes (by decide)
            rw [litDictCl] at he
            simp only [List.append_assoc, List.cons_append, List.nil_append] at he
            simp only [he, unesc_escapeStr hkall]
      · intro xs lvl t w rest hg hf hw
        cases xs with
        | nil =>
            rw [writeL, litArrCl]
            simp only [List.append_assoc, List.cons_append, List.nil_append]
            rw [parseItems]
            simp only [skipWs_append_ws _ hw, skipWs_tabs_append, skipWs_lt, dropLit,
              Char.reduceEq, reduceIte]
        | cons x xs =>
            rw [goodL] at hg
            obtain ⟨hgv, hgxs⟩ := by
              have := hg
              rw [Bool.and_eq_true] at this
              exact this
            rw [fuelL] at hf
            have hfv : fuelV x ≤ fuel := by omega
            have hfxs : fuelL xs ≤ fuel := by omega
            rw [writeL, litArrCl]
            simp only [List.append_assoc, List.cons_append, List.nil_append]
            rw [parseItems, litArrCl]
            have hcl := close_no_match ['a', 'r', 'r', 'a', 'y', '>'] x lvl w
              (writeL lvl xs ++ (tabs t ++ ('<' :: '/' :: 'a' :: 'r' :: 'r' :: 'a' :: 'y' :: '>' :: rest))) hw
            simp only [List.append_assoc, List.cons_append, List.nil_append] at hcl
            rw [hcl]
            have hv := ihV x lvl w
              (writeL lvl xs ++ (tabs t ++ "</array>".toList ++ rest)) hgv hfv hw
            rw [litArrCl] at hv
            simp only [List.append_assoc, List.cons_append, List.nil_append] at hv
            rw [hv]
            have hit := ihL xs lvl t ['\n'] rest hgxs hfxs (by decide)
            rw [litArrCl] at hit
            simp only [List.append_assoc, List.cons_append, List.nil_append] at hit
            simp only [hit]

/-- The reader's fuel requirement never exceeds the serialization's length. -/
theorem fuel_le_len (n : Nat) :
    (∀ v lvl, fuelV v ≤ n → fuelV v + 1 ≤ (writeV lvl v).length) ∧
    (∀ es lvl, fuelE es ≤ n → fuelE es ≤ (writeE lvl es).length + 1) ∧
    (∀ xs lvl, fuelL xs ≤ n → fuelL xs ≤ (writeL lvl xs).length + 1) := by
  induction n with
  | zero =>
      refine ⟨?_, ?_, ?_⟩
      · intro v _ hf; exact absurd hf (by have := fuelV_pos v; omega)
      · intro es _ hf; exact absurd hf (by have := fuelE_pos es; omega)
      · intro xs _ hf; exact absurd hf (by have := fuelL_pos xs; omega)
  | succ n ih =>
      obtain ⟨ihV, ihE, ihL⟩ := ih
      refine ⟨?_, ?_, ?_⟩
      · intro v lvl hf
        cases v with
        | pstr s =>
            simp [fuelV, writeV, List.length_append, litStringO, litStringC]
            omega
        | pint m =>
            simp [fuelV, writeV, List.length_append, litIntegerO, litIntegerC]
            omega
        | pbool b =>
            cases b <;> simp [fuelV, writeV, List.length_append, litTrue, litFalse]
        | parr xs =>
            cases xs with
            | nil => simp [fuelV, fuelL, writeV, List.length_append, litArrE]
            | cons x xs =>
                rw [fuelV] at hf ⊢
                have hl := ihL (x :: xs) (lvl + 1) (by omega)
                rw [writeV]
                simp only [List.length_append, litArrO, litArrC]
                simp only [List.length_cons, List.length_nil]
                omega
        | pdict es =>
            cases es with
            | nil => simp [fuelV, fuelE, writeV, List.length_append, litDictE]
            | cons e es =>
                rw [fuelV] at hf ⊢
                have hl := ihE (e :: es) (lvl + 1) (by omega)
                rw [writeV]
                simp only [List.length_append, litDictO, litDictC]
                simp only [List.length_cons, List.length_nil]
                omega
      · intro es lvl hf
        cases es with
        | nil => simp [fuelE, writeE]
        | cons e es =>
            obtain ⟨k, v⟩ := e
            rw [fuelE] at hf ⊢
            have h1 := ihV v lvl (by omega)
            have h2 := ihE es lvl (by omega)
            rw [writeE]
            simp only [List.length_append, litKeyO, litKeyC]
            simp only [List.length_cons, List.length_nil]
            omega
      · intro xs lvl hf
        cases xs with
        | nil => simp [fuelL, writeL]
        | cons x xs =>
            rw [fuelL] at hf ⊢
            have h1 := ihV x lvl (by omega)
            have h2 := ihL xs lvl (by omega)
            rw [writeL]
            simp only [List.length_append]
            omega

theorem fuelV_le_length (v : PValue) (lvl : Nat) : fuelV v ≤ (writeV lvl v).length := by
  have := (fuel_le_len (fuelV v)).1 v lvl (Nat.le_refl _)
  omega

theorem litPlistC : "</plist>\n".toList = ['<', '/', 'p', 'l', 'i', 's', 't', '>', '\n'] := rfl

/-- Reading back a full document: the reader recovers any good value from the
writer's framed output. -/
theorem loads_writeV {w : PValue} (hg : goodV w = true) :
    plistlib_loads (plistHeader ++ (writeV 0 w ++ "</plist>\n".toList)) = some w := by
  unfold plistlib_loads
  have hfuel : fuelV w ≤ (writeV 0 w ++ "</plist>\n".toList).length + 1 := by
    have := fuelV_le_length w 0
    rw [List.length_append]
    omega
  have hv := (roundtrip ((writeV 0 w ++ "</plist>\n".toList).length + 1)).1 w 0 []
    ("</plist>\n".toList) hg hfuel (by intro c hc; cases hc)
  rw [List.nil_append] at hv
  have hskip : skipWs ('\n' :: "</plist>\n".toList) = "</plist>\n".toList := by
    rw [litPlistC]
    decide
  have hd := dropLit_self ("</plist>\n".toList) []
  rw [List.append_nil] at hd
  simp only [dropLit_self, hv, hskip, hd]

theorem uuidChar_not_ctrl {c : Char} (h : uuidChar c = true) : bannedCtrl c = false := by
  rw [Bool.eq_false_iff]
  intro hb
  simp only [bannedCtrl, Bool.or_eq_true, Bool.and_eq_true, decide_eq_true_eq,
    beq_iff_eq] at hb
  simp only [uuidChar, Bool.or_eq_true, Bool.and_eq_true, decide_eq_true_eq,
    beq_iff_eq] at h
  omega

theorem uuidChar_good {c : Char} (h : uuidChar c = true) : goodChar c = true := by
  simp only [goodChar, Bool.and_eq_true, Bool.not_eq_true']
  refine ⟨uuidChar_not_ctrl h, ?_⟩
  simp only [uuidChar, Bool.or_eq_true, Bool.and_eq_true, decide_eq_true_eq,
    beq_iff_eq] at h
  simp only [bne_iff_ne, Ne]
  omega

theorem uuid_any_ctrl {u : List Char} (h : u.all uuidChar = true) :
    u.any bannedCtrl = false :=
  List.any_eq_false.mpr (fun x hx => by
    rw [uuidChar_not_ctrl (List.all_eq_true.mp h x hx)]
    exact Bool.false_ne_true)

theorem uuid_all_good {u : List Char} (h : u.all uuidChar = true) :
    u.all goodChar = true :=
  List.all_eq_true.mpr (fun x hx => uuidChar_good (List.all_eq_true.mp h x hx))

/-- Claim C4: parsing the bytes of `build_profile("TestNet", "10.0.0.5")` back
yields a dictionary whose top-level `PayloadType` is Configuration and whose
`PayloadContent` has exactly one entry, of payload type `com.apple.wifi.managed`.
The two `uuid.uuid4()` draws are arbitrary hex-and-hyphen strings. -/
theorem build_profile_roundtrip_testnet (u1 u2 : List Char)
    (h1 : u1.all uuidChar = true) (h2 : u2.all uuidChar = true) :
    ∃ bs d, build_profile ("TestNet".toList) ("10.0.0.5".toList) u1 u2 = .ok bs ∧
      plistlib_loads bs = some d ∧
      pLookup d ("PayloadType".toList) = some (.pstr "Configuration".toList) ∧
      ∃ payload, pLookup d ("PayloadContent".toList) = some (.parr [.pdict payload]) ∧
        lookupE payload ("PayloadType".toList)
          = some (.pstr "com.apple.wifi.managed".toList) := by
  have hcanon : canon (build_profile_dict ("TestNet".toList) ("10.0.0.5".toList) u1 u2)
      = PValue.pdict
        [("PayloadContent".toList, .parr [.pdict
           [("AutoJoin".toList, .pbool true),
            ("EncryptionType".toList, .pstr "Any".toList),
            ("HIDDEN_NETWORK".toList, .pbool false),
            ("PayloadDescription".toList, .pstr "Configures Wi-Fi proxy settings".toList),
            ("PayloadDisplayName".toList, .pstr "TestNet Wi-Fi".toList),
            ("PayloadIdentifier".toList, .pstr "com.example.wifi.TestNet".toList),
            ("PayloadType".toList, .pstr "com.apple.wifi.managed".toList),
            ("PayloadUUID".toList, .pstr u2),
            ("PayloadVersion".toList, .pint 1),
            ("ProxyServer".toList, .pstr "10.0.0.5".toList),
            ("ProxyServerPort".toList, .pint 8082),
            ("ProxyType".toList, .pstr "Manual".toList),
            ("SSID_STR".toList, .pstr "TestNet".toList)]]),
         ("PayloadDescription".toList,
            .pstr "Installs Wi-Fi proxy settings for Burp Suite".toList),
         ("PayloadDisplayName".toList, .pstr "Burp Suite Wi-Fi Proxy".toList),
         ("PayloadIdentifier".toList, .pstr "com.example.burp-proxy.TestNet".toList),
         ("PayloadOrganization".toList, .pstr "Burp Proxy Setup".toList),
         ("PayloadType".toList, .pstr "Configuration".toList),
         ("PayloadUUID".toList, .pstr u1),
         ("PayloadVersion".toList, .pint 1)] := rfl
  have hbad : hasBadV (build_profile_dict ("TestNet".toList) ("10.0.0.5".toList) u1 u2)
      = false := by
    simp [build_profile_dict, profile_outer_entries, wifi_payload, hasBadV, hasBadE,
      hasBadL, List.any_append, uuid_any_ctrl h1, uuid_any_ctrl h2, bannedCtrl]
    decide
  have hgood : goodV (canon (build_profile_dict ("TestNet".toList) ("10.0.0.5".toList)
      u1 u2)) = true := by
    rw [hcanon]
    simp [goodV, goodE, goodL, uuid_all_good h1, uuid_all_good h2, goodChar, bannedCtrl]
  have hsurr : hasSurrV (build_profile_dict ("TestNet".toList) ("10.0.0.5".toList) u1 u2)
      = false := by
    simp [build_profile_dict, profile_outer_entries, wifi_payload, hasSurrV, hasSurrE,
      hasSurrL, any_surr_false, char_no_surrogate]
  refine ⟨plistHeader ++ (writeV 0 (canon (build_profile_dict ("TestNet".toList)
      ("10.0.0.5".toList) u1 u2)) ++ "</plist>\n".toList),
    canon (build_profile_dict ("TestNet".toList) ("10.0.0.5".toList) u1 u2),
    ?_, loads_writeV hgood, ?_, ?_⟩
  · unfold build_profile plistlib_dumps
    rw [hbad, hsurr]
    simp [List.append_assoc]
  · rw [hcanon]
    rfl
  · refine ⟨[("AutoJoin".toList, .pbool true),
      ("EncryptionType".toList, .pstr "Any".toList),
      ("HIDDEN_NETWORK".toList, .pbool false),
      ("PayloadDescription".toList, .pstr "Configures Wi-Fi proxy settings".toList),
      ("PayloadDisplayName".toList, .pstr "TestNet Wi-Fi".toList),
      ("PayloadIdentifier".toList, .pstr "com.example.wifi.TestNet".toList),
      ("PayloadType".toList, .pstr "com.apple.wifi.managed".toList),
      ("PayloadUUID".toList, .pstr u2),
      ("PayloadVersion".toList, .pint 1),
      ("ProxyServer".toList, .pstr "10.0.0.5".toList),
      ("ProxyServerPort".toList, .pint 8082),
      ("ProxyType".toList, .pstr "Manual".toList),
      ("SSID_STR".toList, .pstr "TestNet".toList)], ?_, ?_⟩
    · rw [hcanon]
      rfl
    · rfl

/-- Witness for claim C4 at concrete uuid draws. -/
theorem build_profile_roundtrip_testnet_witness :
    (("11111111-2222-3333-4444-555555555555".toList).all uuidChar = true ∧
     ("aaaaaaaa-bbbb-cccc-dddd-eeeeeeeeeeee".toList).all uuidChar = true) ∧
    (∃ bs d, build_profile ("TestNet".toList) ("10.0.0.5".toList)
        ("11111111-2222-3333-4444-555555555555".toList)
        ("aaaaaaaa-bbbb-cccc-dddd-eeeeeeeeeeee".toList) = .ok bs ∧
      plistlib_loads bs = some d ∧
      pLookup d ("PayloadType".toList) = some (.pstr "Configuration".toList) ∧
      ∃ payload, pLookup d ("PayloadContent".toList) = some (.parr [.pdict payload]) ∧
        lookupE payload ("PayloadType".toList)
          = some (.pstr "com.apple.wifi.managed".toList)) :=
  ⟨⟨by decide, by decide⟩, build_profile_roundtrip_testnet _ _ (by decide) (by decide)⟩

end BurpSetup
